import Mathlib

/-!
Shallow embedding of the neohubapi client library (src/neohubapi) for
verification of its request/response engine, facade validation logic, enum
decoding and zone-snapshot construction.

The embedding follows the Python source:
  * `neohubapi/neohub.py`  — `NeoHub._send` (request engine), `reset`,
    `set_channel`, `set_dst`, `set_lock`;
  * `neohubapi/enums.py`   — `ScheduleFormat`, `schedule_format_int_to_enum`;
  * `neohubapi/neostat.py` — the field assignments of `NeoStat.__init__`.

JSON / Python values are modelled by the mutual inductive `JVal`:
`json.loads(..., object_hook=lambda d: SimpleNamespace(**d))` turns every
JSON object, at any depth, into a `SimpleNamespace`; this decoding is the
function `toNS` (`obj` becomes `ns`).  Python `==` on the decoded values is
`pyEq`: a `SimpleNamespace` never compares equal to a plain `dict`, while
`bool` cross-compares with `int` (`True == 1`).  Mappings are association
lists with distinct keys (as produced by `dict` construction and by JSON
decoding); `dict` equality is length equality plus key-wise lookup.
-/

set_option maxHeartbeats 1000000

namespace Neohubapi

mutual

inductive JVal where
  | num (n : Int)
  | str (s : String)
  | jbool (b : Bool)
  | null
  | arr (xs : JList)
  | obj (fs : JFields)
  | ns (fs : JFields)
  deriving DecidableEq

inductive JList where
  | nil
  | cons (head : JVal) (tail : JList)
  deriving DecidableEq

inductive JFields where
  | nil
  | cons (key : String) (val : JVal) (tail : JFields)
  deriving DecidableEq

end

/-- Number of fields of a mapping (Python `len`). -/
def JFields.flen : JFields → Nat
  | .nil => 0
  | .cons _ _ t => t.flen + 1

/-- Key lookup in a mapping (Python `d[k]` / `k in d`); keys are distinct. -/
def JFields.lookupF : JFields → String → Option JVal
  | .nil, _ => none
  | .cons k v t, key => if k = key then some v else t.lookupF key

mutual

/-- Python `==` on decoded values.  `SimpleNamespace.__eq__` compares only
with another `SimpleNamespace` (against a `dict` it is `False`); Python
`bool` is an `int` subtype, so `True == 1`.  Mapping equality is equal
length plus key-wise equal values (keys are distinct). -/
def pyEq : JVal → JVal → Bool
  | .num a, .num b => a = b
  | .num a, .jbool b => a = (if b then (1 : Int) else 0)
  | .jbool a, .num b => (if a then (1 : Int) else 0) = b
  | .jbool a, .jbool b => a = b
  | .str a, .str b => a = b
  | .null, .null => true
  | .arr xs, .arr ys => pyEqList xs ys
  | .obj fs, .obj gs => (fs.flen = gs.flen) && pyEqSub fs gs
  | .ns fs, .ns gs => (fs.flen = gs.flen) && pyEqSub fs gs
  | _, _ => false

def pyEqList : JList → JList → Bool
  | .nil, .nil => true
  | .cons x xs, .cons y ys => pyEq x y && pyEqList xs ys
  | _, _ => false

def pyEqSub : JFields → JFields → Bool
  | .nil, _ => true
  | .cons k v fs, gs =>
      (match gs.lookupF k with
       | some w => pyEq v w
       | none => false) && pyEqSub fs gs

end

/-- Python `dict` equality of two mappings (`reply.__dict__ == expected_reply`). -/
def pyEqDict (fs gs : JFields) : Bool := (fs.flen = gs.flen) && pyEqSub fs gs

mutual

/-- The decoding of `json.loads(s, object_hook=lambda d: SimpleNamespace(**d))`:
every JSON object, at any depth, becomes a `SimpleNamespace`. -/
def toNS : JVal → JVal
  | .num n => .num n
  | .str s => .str s
  | .jbool b => .jbool b
  | .null => .null
  | .arr xs => .arr (toNSList xs)
  | .obj fs => .ns (toNSFields fs)
  | .ns fs => .ns (toNSFields fs)

def toNSList : JList → JList
  | .nil => .nil
  | .cons x xs => .cons (toNS x) (toNSList xs)

def toNSFields : JFields → JFields
  | .nil => .nil
  | .cons k v t => .cons k (toNS v) (toNSFields t)

end

mutual

/-- Structural deep equality of decoded JSON structures read as mappings,
following the spec: namespace records and plain mappings with the same
content are identified; key order is irrelevant. -/
def specDeepEq : JVal → JVal → Bool
  | .num a, .num b => a = b
  | .num a, .jbool b => a = (if b then (1 : Int) else 0)
  | .jbool a, .num b => (if a then (1 : Int) else 0) = b
  | .jbool a, .jbool b => a = b
  | .str a, .str b => a = b
  | .null, .null => true
  | .arr xs, .arr ys => specDeepEqList xs ys
  | .obj fs, .obj gs => (fs.flen = gs.flen) && specDeepEqSub fs gs
  | .obj fs, .ns gs => (fs.flen = gs.flen) && specDeepEqSub fs gs
  | .ns fs, .obj gs => (fs.flen = gs.flen) && specDeepEqSub fs gs
  | .ns fs, .ns gs => (fs.flen = gs.flen) && specDeepEqSub fs gs
  | _, _ => false

def specDeepEqList : JList → JList → Bool
  | .nil, .nil => true
  | .cons x xs, .cons y ys => specDeepEq x y && specDeepEqList xs ys
  | _, _ => false

def specDeepEqSub : JFields → JFields → Bool
  | .nil, _ => true
  | .cons k v fs, gs =>
      (match gs.lookupF k with
       | some w => specDeepEq v w
       | none => false) && specDeepEqSub fs gs

end

/-- Deep mapping equality of two field lists (spec-side counterpart of
`pyEqDict`). -/
def specDeepEqDict (fs gs : JFields) : Bool := (fs.flen = gs.flen) && specDeepEqSub fs gs

mutual

/-- Holds (`true`) when the value contains no mapping node (`obj` or `ns`) at all. -/
def objNsFree : JVal → Bool
  | .num _ => true
  | .str _ => true
  | .jbool _ => true
  | .null => true
  | .arr xs => objNsFreeList xs
  | .obj _ => false
  | .ns _ => false

def objNsFreeList : JList → Bool
  | .nil => true
  | .cons x xs => objNsFree x && objNsFreeList xs

end

/-- A flat mapping: none of its values contains a nested mapping. -/
def flatFields : JFields → Bool
  | .nil => true
  | .cons _ v t => objNsFree v && flatFields t

/-! ## The request engine: `NeoHub._send` (neohub.py lines 52–85)

One `Outcome` describes what a single connection attempt yields from the
environment: a connection-level failure (`socket.gaierror` /
`ConnectionRefusedError`), a timeout (`asyncio.TimeoutError`), a reply that
is not valid JSON (`json.decoder.JSONDecodeError`), or a frame that decodes
to the JSON document `v` (written without `ns` nodes; the engine applies
`toNS` to it). -/

inductive Failure where
  | connErr
  | timeoutErr
  | decodeErr
  deriving DecidableEq

inductive Outcome where
  | connFail
  | timeoutFail
  | decodeFail
  | reply (v : JVal)
  deriving DecidableEq

inductive SendResult where
  | retData (v : JVal)
  | retBool (b : Bool)
  | raised (e : Failure)
  | crashed
  deriving DecidableEq

/-- The attempt loop of `NeoHub._send`, over the remaining attempts'
outcomes, threading `last_exception`.  Returns the result together with the
number of connection attempts made.  On a decoded reply: with no
`expected_reply` the decoded record is returned at once; with an
`expected_reply`, `reply.__dict__ == expected_reply` returning `True` ends
the call with `True`, a mismatch is logged and the loop continues (without
touching `last_exception`), and a non-object reply makes `reply.__dict__`
raise an uncaught `AttributeError` (`crashed`).  After the loop: `False`,
except that with no `expected_reply` the last recorded failure is raised. -/
def sendLoop (expected : Option JFields) : List Outcome → Option Failure → SendResult × Nat
  | [], last =>
      match expected, last with
      | none, some e => (.raised e, 0)
      | _, _ => (.retBool false, 0)
  | .connFail :: rest, _ =>
      let r := sendLoop expected rest (some .connErr)
      (r.1, r.2 + 1)
  | .timeoutFail :: rest, _ =>
      let r := sendLoop expected rest (some .timeoutErr)
      (r.1, r.2 + 1)
  | .decodeFail :: rest, _ =>
      let r := sendLoop expected rest (some .decodeErr)
      (r.1, r.2 + 1)
  | .reply v :: rest, last =>
      match expected with
      | none => (.retData (toNS v), 1)
      | some exp =>
          match toNS v with
          | .ns fs =>
              if pyEqDict fs exp then (.retBool true, 1)
              else
                let r := sendLoop expected rest last
                (r.1, r.2 + 1)
          | _ => (.crashed, 1)

/-- Model of `NeoHub._send(message, expected_reply)`: run the attempt loop with
`last_exception = None`; the outcome list has one entry per configured
attempt (`request_attempts`). -/
def send (expected : Option JFields) (outs : List Outcome) : SendResult × Nat :=
  sendLoop expected outs none

/-- Whether an attempt outcome is a reply whose decoded value is an object
(a `SimpleNamespace` after decoding), so that `reply.__dict__` exists. -/
def isObjReply : Outcome → Bool
  | .reply v =>
      match toNS v with
      | .ns _ => true
      | _ => false
  | _ => false

/-- The comparison the engine performs on one attempt outcome:
`reply.__dict__ == expected_reply` on a decoded object reply, `false`
otherwise. -/
def matchesExpected (exp : JFields) : Outcome → Bool
  | .reply v =>
      match toNS v with
      | .ns fs => pyEqDict fs exp
      | _ => false
  | _ => false

/-- The exception recorded in `last_exception` by a failing attempt:
connection failures record `NeoHubConnectionError`, timeouts
`asyncio.TimeoutError`, undecodable replies `json.decoder.JSONDecodeError`;
a decoded reply records nothing. -/
def hardFailKind : Outcome → Option Failure
  | .connFail => some .connErr
  | .timeoutFail => some .timeoutErr
  | .decodeFail => some .decodeErr
  | .reply _ => none

/-- An attempt that fails relative to `exp`: a connection failure, timeout
or decode failure, or a decoded object reply that mismatches `exp`. -/
def attemptFails (exp : JFields) (o : Outcome) : Bool :=
  (hardFailKind o).isSome || (isObjReply o && !(matchesExpected exp o))

/-! ## Facade operations (neohub.py) -/

/-- Expected reply of `RESET` (neohub.py line 129): `{"Restarting": 1}`. -/
def resetReply : JFields := .cons "Restarting" (.num 1) .nil

/-- Model of `NeoHub.reset` (neohub.py lines 121–137): first query the firmware
version; only when it is at least 2027 send `{"RESET": 0}` with expected
reply `resetReply` and return the engine's result, else return `False`
without sending.  The first component records whether the RESET frame was
sent; `outs` are the engine's attempt outcomes for the RESET send. -/
def reset (firmware_version : Int) (outs : List Outcome) : Bool × SendResult :=
  if 2027 ≤ firmware_version then (true, (send (some resetReply) outs).1)
  else (false, .retBool false)

/-- Argument of `set_channel` after Python `int(channel)`: either the
coercion succeeds with value `n`, or it raises `ValueError` (a string that
is not a number). -/
inductive ChannelArg where
  | coercible (n : Int)
  | valueErr
  deriving DecidableEq

inductive SetChannelResult where
  | usageError (msg : String)
  | sendChannel (n : Int)
  deriving DecidableEq

/-- The ZigBee channels listed in `set_channel`'s docstring
("Only channels 11, 14, 15, 19, 20, 24, 25 are allowed."). -/
def allowed_channels : List Int := [11, 14, 15, 19, 20, 24, 25]

/-- Model of `NeoHub.set_channel` (neohub.py lines 139–154): `int(channel)` raising
`ValueError` becomes `NeoHubUsageError('channel must be a number')`;
otherwise `{"SET_CHANNEL": int(channel)}` is sent (with expected reply
`{"result": "Trying to change channel"}`).  No membership check against
`allowed_channels` is performed. -/
def set_channel : ChannelArg → SetChannelResult
  | .valueErr => .usageError "channel must be a number"
  | .coercible n => .sendChannel n

/-- The value of a `DST_ON`/`DST_OFF` message: `0 if region is None else region`
(neohub.py line 342). -/
inductive DstPayload where
  | sentinel0
  | regionName (r : String)
  deriving DecidableEq

inductive SetDstResult where
  | usageError (msg : String)
  | sendDst (verb : String) (payload : DstPayload)
  deriving DecidableEq

/-- The list `valid_timezones` (neohub.py line 345). -/
def valid_timezones : List String := ["UK", "EU", "NZ"]

/-- Python `region in valid_timezones`: `None` is not a member of a list of
strings. -/
def inValidTimezones : Option String → Bool
  | none => false
  | some r => valid_timezones.contains r

/-- Model of `NeoHub.set_dst` (neohub.py lines 334–350): build the message
`{"DST_ON"/"DST_OFF": 0 if region is None else region}`, then raise
`NeoHubUsageError` when `region not in ["UK", "EU", "NZ"]`, else send. -/
def set_dst (state : Bool) (region : Option String) : SetDstResult :=
  let verb := if state then "DST_ON" else "DST_OFF"
  let payload := match region with
    | none => DstPayload.sentinel0
    | some r => DstPayload.regionName r
  if inValidTimezones region then .sendDst verb payload
  else .usageError "region must be in [UK, EU, NZ]"

/-- The `pin` argument of `set_lock`: a Python number, or a value whose
comparison with an `int` raises `TypeError`. -/
inductive PinArg where
  | int (n : Int)
  | nonNumber
  deriving DecidableEq

inductive SetLockResult where
  | usageError (msg : String)
  | retFalse
  | sendLock (pins : List Int) (names : List String)
  deriving DecidableEq

/-- The digit loop of `set_lock` (neohub.py lines 421–425):
`for x in range(4): pins.append(pin % 10); pin = pin // 10` followed by
`pins.reverse()`.  Python `//` and `%` agree with `Int.ediv` / `Int.emod`
on the non-negative pins that reach this loop. -/
def pinDigitsLoop : Nat → Int → List Int → List Int
  | 0, _, acc => acc.reverse
  | Nat.succ k, pin, acc => pinDigitsLoop k (pin.ediv 10) (acc ++ [pin.emod 10])

/-- Model of `NeoHub.set_lock` (neohub.py lines 408–436): a `pin` that cannot be
compared with an `int` raises `NeoHubUsageError`; a numeric `pin` outside
`0..9999` returns `False` at once (before the devices are touched and
before any network send); otherwise the digits are extracted and
`{"LOCK": [pins, names]}` is sent (expected reply `{"result": "locked"}`).
`devices` is `none` when `[x.name for x in devices]` raises
(`TypeError`/`AttributeError`), `some names` otherwise. -/
def set_lock (pin : PinArg) (devices : Option (List String)) : SetLockResult :=
  match pin with
  | .nonNumber => .usageError "pin must be a number"
  | .int n =>
      if n < 0 ∨ 9999 < n then .retFalse
      else
        let pins := pinDigitsLoop 4 n []
        match devices with
        | none => .usageError "devices must be a list of NeoStat objects"
        | some names => .sendLock pins names

/-! ## Enums (enums.py) -/

/-- The enum `ScheduleFormat` (enums.py lines 9–22); members `ZERO`, `ONE`, `TWO`,
`SEVEN`. -/
inductive ScheduleFormat where
  | ZERO
  | ONE
  | TWO
  | SEVEN
  deriving DecidableEq

/-- The string `value` of each `ScheduleFormat` member (enums.py lines
19–22). -/
def ScheduleFormat.pyValue : ScheduleFormat → String
  | .ZERO => "NONPROGRAMMABLE"
  | .ONE => "24HOURSFIXED"
  | .TWO => "5DAY/2DAY"
  | .SEVEN => "7DAY"

/-- Model of `schedule_format_int_to_enum` (enums.py lines 25–37): `None` maps to
`None`; codes 0, 1, 2, 4 map to the four members; anything else raises
`ValueError('Unrecognized ScheduleFormat')`. -/
def schedule_format_int_to_enum : Option Int → Except String (Option ScheduleFormat)
  | none => .ok none
  | some n =>
      if n = 0 then .ok (some .ZERO)
      else if n = 1 then .ok (some .ONE)
      else if n = 2 then .ok (some .TWO)
      else if n = 4 then .ok (some .SEVEN)
      else .error "Unrecognized ScheduleFormat"

/-- Modelled from the spec: the repository has no enum-to-integer-code
encoder under src/ (`set_format` sends the enum's *string* value); the
spec's "bidirectionally mapped to integer codes {0,1,2,4}" gives this
encoding direction. -/
def scheduleFormatToInt : ScheduleFormat → Int
  | .ZERO => 0
  | .ONE => 1
  | .TWO => 2
  | .SEVEN => 4

/-! ## Zone snapshot construction (neostat.py) -/

/-- The fields of a `NeoStat` zone snapshot relevant to the renamed-attrs
block of `NeoStat.__init__` (neostat.py lines 71–81).  `Option JVal` models
`getattr(self._data_, KEY, None)`. -/
structure ZoneSnapshot where
  name : Option JVal
  floor_limit : Option JVal
  target_temperature : Option JVal
  temperature : Option JVal
  deriving DecidableEq

/-- The field assignments of `NeoStat.__init__` (neostat.py lines 71–81)
restricted to the snapshot fields above, over a device record given as its
`getattr` map `g` (`g key = none` models a missing attribute).  The
`_simple_attrs` loop first sets `floor_limit` from the record's
`FLOOR_LIMIT`; the renamed-attrs block then overwrites `name`,
`floor_limit`, `target_temperature` and `temperature` from `ZONE_NAME`,
`ZONE_NAME`, `SET_TEMP` and `ACTUAL_TEMP`. -/
def neoStatInit (g : String → Option JVal) : ZoneSnapshot :=
  let fromLoop : ZoneSnapshot :=
    { name := none
      floor_limit := g "FLOOR_LIMIT"
      target_temperature := none
      temperature := none }
  { fromLoop with
      name := g "ZONE_NAME"
      floor_limit := g "ZONE_NAME"
      target_temperature := g "SET_TEMP"
      temperature := g "ACTUAL_TEMP" }

/-! ## Helper lemmas about the request engine -/

/-- When every remaining outcome is a decoded object reply that mismatches
`exp`, the loop exhausts all attempts and yields `False`, whatever
`last_exception` holds. -/
theorem sendLoop_all_mismatch (exp : JFields) :
    ∀ (outs : List Outcome) (last : Option Failure),
      (∀ o ∈ outs, isObjReply o = true ∧ matchesExpected exp o = false) →
      sendLoop (some exp) outs last = (.retBool false, outs.length)
  | [], _, _ => rfl
  | o :: rest, last, h => by
      have ho := h o (List.mem_cons_self o rest)
      have hrest : ∀ x ∈ rest, isObjReply x = true ∧ matchesExpected exp x = false :=
        fun x hx => h x (List.mem_cons_of_mem o hx)
      cases o with
      | connFail => simp [isObjReply] at ho
      | timeoutFail => simp [isObjReply] at ho
      | decodeFail => simp [isObjReply] at ho
      | reply v =>
          cases hv : toNS v with
          | ns fs =>
              have hm : pyEqDict fs exp = false := by
                have := ho.2
                simpa [matchesExpected, hv] using this
              simp [sendLoop, hv, hm, sendLoop_all_mismatch exp rest last hrest]
          | num n => simp [isObjReply, hv] at ho
          | str s => simp [isObjReply, hv] at ho
          | jbool b => simp [isObjReply, hv] at ho
          | null => simp [isObjReply, hv] at ho
          | arr xs => simp [isObjReply, hv] at ho
          | obj fs => simp [isObjReply, hv] at ho

/-- When a prefix of mismatching object replies is followed by a matching
reply, the loop returns `True` after exactly `pre.length + 1` attempts. -/
theorem sendLoop_first_match (exp : JFields) :
    ∀ (pre : List Outcome) (o : Outcome) (rest : List Outcome) (last : Option Failure),
      (∀ x ∈ pre, isObjReply x = true ∧ matchesExpected exp x = false) →
      matchesExpected exp o = true →
      sendLoop (some exp) (pre ++ o :: rest) last = (.retBool true, pre.length + 1)
  | [], o, rest, last, _, hm => by
      cases o with
      | connFail => simp [matchesExpected] at hm
      | timeoutFail => simp [matchesExpected] at hm
      | decodeFail => simp [matchesExpected] at hm
      | reply v =>
          cases hv : toNS v with
          | ns fs =>
              have hd : pyEqDict fs exp = true := by
                simpa [matchesExpected, hv] using hm
              simp [sendLoop, hv, hd]
          | num n => simp [matchesExpected, hv] at hm
          | str s => simp [matchesExpected, hv] at hm
          | jbool b => simp [matchesExpected, hv] at hm
          | null => simp [matchesExpected, hv] at hm
          | arr xs => simp [matchesExpected, hv] at hm
          | obj fs => simp [matchesExpected, hv] at hm
  | x :: pre, o, rest, last, h, hm => by
      have hx := h x (List.mem_cons_self x pre)
      have hpre : ∀ y ∈ pre, isObjReply y = true ∧ matchesExpected exp y = false :=
        fun y hy => h y (List.mem_cons_of_mem x hy)
      cases x with
      | connFail => simp [isObjReply] at hx
      | timeoutFail => simp [isObjReply] at hx
      | decodeFail => simp [isObjReply] at hx
      | reply v =>
          cases hv : toNS v with
          | ns fs =>
              have hmm : pyEqDict fs exp = false := by
                have := hx.2
                simpa [matchesExpected, hv] using this
              simp [sendLoop, hv, hmm,
                sendLoop_first_match exp pre o rest last hpre hm]
          | num n => simp [isObjReply, hv] at hx
          | str s => simp [isObjReply, hv] at hx
          | jbool b => simp [isObjReply, hv] at hx
          | null => simp [isObjReply, hv] at hx
          | arr xs => simp [isObjReply, hv] at hx
          | obj fs => simp [isObjReply, hv] at hx

/-- When every attempt fails relative to `exp`, the loop yields `False`. -/
theorem sendLoop_all_fail (exp : JFields) :
    ∀ (outs : List Outcome) (last : Option Failure),
      (∀ o ∈ outs, attemptFails exp o = true) →
      (sendLoop (some exp) outs last).1 = .retBool false
  | [], _, _ => rfl
  | o :: rest, last, h => by
      have ho := h o (List.mem_cons_self o rest)
      have hrest : ∀ x ∈ rest, attemptFails exp x = true :=
        fun x hx => h x (List.mem_cons_of_mem o hx)
      cases o with
      | connFail => simp [sendLoop, sendLoop_all_fail exp rest (some .connErr) hrest]
      | timeoutFail => simp [sendLoop, sendLoop_all_fail exp rest (some .timeoutErr) hrest]
      | decodeFail => simp [sendLoop, sendLoop_all_fail exp rest (some .decodeErr) hrest]
      | reply v =>
          cases hv : toNS v with
          | ns fs =>
              have hmm : pyEqDict fs exp = false := by
                have := ho
                simpa [attemptFails, hardFailKind, isObjReply, matchesExpected, hv] using this
              simp [sendLoop, hv, hmm, sendLoop_all_fail exp rest last hrest]
          | num n => simp [attemptFails, hardFailKind, isObjReply, hv] at ho
          | str s => simp [attemptFails, hardFailKind, isObjReply, hv] at ho
          | jbool b => simp [attemptFails, hardFailKind, isObjReply, hv] at ho
          | null => simp [attemptFails, hardFailKind, isObjReply, hv] at ho
          | arr xs => simp [attemptFails, hardFailKind, isObjReply, hv] at ho
          | obj fs => simp [attemptFails, hardFailKind, isObjReply, hv] at ho

/-- With no expected reply and only hard failures, the loop raises the kind
of the last failure, after one attempt per outcome. -/
theorem sendLoop_none_raises :
    ∀ (outs : List Outcome) (o : Outcome) (e : Failure) (last : Option Failure),
      (∀ x ∈ outs, (hardFailKind x).isSome = true) →
      outs.getLast? = some o → hardFailKind o = some e →
      sendLoop none outs last = (.raised e, outs.length)
  | [], o, e, last, _, hlast, _ => by simp at hlast
  | [x], o, e, last, h, hlast, he => by
      have hx : o = x := by simpa using hlast.symm
      subst hx
      cases o with
      | connFail =>
          have : e = .connErr := by simpa [hardFailKind] using he.symm
          subst this; rfl
      | timeoutFail =>
          have : e = .timeoutErr := by simpa [hardFailKind] using he.symm
          subst this; rfl
      | decodeFail =>
          have : e = .decodeErr := by simpa [hardFailKind] using he.symm
          subst this; rfl
      | reply v => simp [hardFailKind] at he
  | x :: y :: ys, o, e, last, h, hlast, he => by
      have hx := h x (List.mem_cons_self x (y :: ys))
      have hrest : ∀ z ∈ y :: ys, (hardFailKind z).isSome = true :=
        fun z hz => h z (List.mem_cons_of_mem x hz)
      have hlast' : (y :: ys).getLast? = some o := by
        simpa [List.getLast?_cons_cons] using hlast
      cases x with
      | connFail =>
          simp [sendLoop, sendLoop_none_raises (y :: ys) o e (some .connErr) hrest hlast' he]
      | timeoutFail =>
          simp [sendLoop, sendLoop_none_raises (y :: ys) o e (some .timeoutErr) hrest hlast' he]
      | decodeFail =>
          simp [sendLoop, sendLoop_none_raises (y :: ys) o e (some .decodeErr) hrest hlast' he]
      | reply v => simp [hardFailKind] at hx

mutual

/-- Against a value that contains no mapping node, Python equality and the
spec's deep structural equality agree. -/
theorem pyEq_flat : ∀ (w : JVal), objNsFree w = true → ∀ (v : JVal), pyEq v w = specDeepEq v w
  | .num b, _, v => by cases v <;> rfl
  | .str b, _, v => by cases v <;> rfl
  | .jbool b, _, v => by cases v <;> rfl
  | .null, _, v => by cases v <;> rfl
  | .arr ys, h, v => by
      have h' : objNsFreeList ys = true := by simpa [objNsFree] using h
      cases v with
      | arr xs => simpa [pyEq, specDeepEq] using pyEqList_flat ys h' xs
      | num a => rfl
      | str a => rfl
      | jbool a => rfl
      | null => rfl
      | obj fs => rfl
      | ns fs => rfl
  | .obj gs, h, v => by simp [objNsFree] at h
  | .ns gs, h, v => by simp [objNsFree] at h

theorem pyEqList_flat :
    ∀ (ws : JList), objNsFreeList ws = true →
      ∀ (vs : JList), pyEqList vs ws = specDeepEqList vs ws
  | .nil, _, vs => by cases vs <;> rfl
  | .cons y ys, h, vs => by
      have h1 : objNsFree y = true := by
        have := h
        simp [objNsFreeList, Bool.and_eq_true] at this
        exact this.1
      have h2 : objNsFreeList ys = true := by
        have := h
        simp [objNsFreeList, Bool.and_eq_true] at this
        exact this.2
      cases vs with
      | nil => rfl
      | cons x xs =>
          simp [pyEqList, specDeepEqList, pyEq_flat y h1 x, pyEqList_flat ys h2 xs]

end

/-- Any value looked up in a flat mapping contains no mapping node. -/
theorem lookupF_flat :
    ∀ (gs : JFields) (k : String) (w : JVal),
      flatFields gs = true → gs.lookupF k = some w → objNsFree w = true
  | .nil, _, _, _, hl => by simp [JFields.lookupF] at hl
  | .cons k' v t, k, w, hf, hl => by
      have h1 : objNsFree v = true ∧ flatFields t = true := by
        simpa [flatFields, Bool.and_eq_true] using hf
      by_cases hk : k' = k
      · have : v = w := by simpa [JFields.lookupF, hk] using hl
        exact this ▸ h1.1
      · have hl' : t.lookupF k = some w := by simpa [JFields.lookupF, hk] using hl
        exact lookupF_flat t k w h1.2 hl'

/-- Against a flat expected mapping, the engine's key-wise scan agrees with
the spec's deep scan. -/
theorem pyEqSub_flat (gs : JFields) (hg : flatFields gs = true) :
    ∀ (fs : JFields), pyEqSub fs gs = specDeepEqSub fs gs
  | .nil => rfl
  | .cons k v t => by
      simp only [pyEqSub, specDeepEqSub, pyEqSub_flat gs hg t]
      congr 1
      cases hl : gs.lookupF k with
      | none => rfl
      | some w => exact pyEq_flat w (lookupF_flat gs k w hg hl) v

/-! ## Claim theorems -/

/-- C1: with `expected_reply` supplied and `max_attempts = N`, a server
that on every attempt returns a structurally valid JSON object reply that
does not match `expected_reply` makes the engine perform exactly `N`
connection attempts and return `False`; and as soon as some attempt's
decoded reply matches `expected_reply`, the engine returns `True` at once,
after the attempts up to and including that one. -/
theorem send_retry_count :
    (∀ (exp : JFields) (outs : List Outcome),
        (∀ o ∈ outs, isObjReply o = true ∧ matchesExpected exp o = false) →
        send (some exp) outs = (.retBool false, outs.length)) ∧
    (∀ (exp : JFields) (pre : List Outcome) (o : Outcome) (rest : List Outcome),
        (∀ x ∈ pre, isObjReply x = true ∧ matchesExpected exp x = false) →
        matchesExpected exp o = true →
        send (some exp) (pre ++ o :: rest) = (.retBool true, pre.length + 1)) := by
  constructor
  · intro exp outs h
    exact sendLoop_all_mismatch exp outs none h
  · intro exp pre o rest h hm
    exact sendLoop_first_match exp pre o rest none h hm

/-- Witness for C1, mirroring `test_send_retries`: three non-matching
replies exhaust three attempts and yield `False`; a matching reply after a
mismatch yields `True` after two attempts. -/
theorem send_retry_count_witness :
    send (some (.cons "message" (.str "ok") .nil))
        [.reply (.obj (.cons "message" (.str "error") .nil)),
         .reply (.obj (.cons "message" (.str "error") .nil)),
         .reply (.obj (.cons "message" (.str "error") .nil))] = (.retBool false, 3) ∧
    send (some (.cons "message" (.str "ok") .nil))
        [.reply (.obj (.cons "message" (.str "error") .nil)),
         .reply (.obj (.cons "message" (.str "ok") .nil)),
         .reply (.obj (.cons "message" (.str "error") .nil))] = (.retBool true, 2) := by
  constructor
  · exact send_retry_count.1 (.cons "message" (.str "ok") .nil) _ (by decide)
  · exact send_retry_count.2 (.cons "message" (.str "ok") .nil)
      [.reply (.obj (.cons "message" (.str "error") .nil))]
      (.reply (.obj (.cons "message" (.str "ok") .nil)))
      [.reply (.obj (.cons "message" (.str "error") .nil))]
      (by decide) (by decide)

/-- C2: when every attempt fails (connection failure, timeout, decode
failure, or a mismatching object reply), a call with `expected_reply`
returns `False`; with `expected_reply = None` and only recordable failures
(connection, timeout, decode), the engine raises the last recorded failure
after exhausting every attempt — never a silent `False`. -/
theorem send_exhaustion :
    (∀ (exp : JFields) (outs : List Outcome),
        (∀ o ∈ outs, attemptFails exp o = true) →
        (send (some exp) outs).1 = .retBool false) ∧
    (∀ (outs : List Outcome) (o : Outcome) (e : Failure),
        (∀ x ∈ outs, (hardFailKind x).isSome = true) →
        outs.getLast? = some o → hardFailKind o = some e →
        send none outs = (.raised e, outs.length)) := by
  constructor
  · intro exp outs h
    exact sendLoop_all_fail exp outs none h
  · intro outs o e h hlast he
    exact sendLoop_none_raises outs o e none h hlast he

/-- Witness for C2: a sole timeout with an expected reply yields `False`;
with no expected reply, a connection failure followed by a decode failure
raises the decode failure after both attempts. -/
theorem send_exhaustion_witness :
    (send (some (.cons "message" (.str "ok") .nil)) [.timeoutFail]).1 = .retBool false ∧
    send none [.connFail, .decodeFail] = (.raised .decodeErr, 2) := by
  constructor
  · exact send_exhaustion.1 (.cons "message" (.str "ok") .nil) [.timeoutFail] (by decide)
  · exact send_exhaustion.2 [.connFail, .decodeFail] .decodeFail .decodeErr
      (by decide) (by decide) (by decide)

/-- C3 counterexample: a reply that deep-equals the expected mapping
`{"a": {"b": 1}}` (including its nested mapping) still makes the engine
return `False`: the nested JSON object decodes to a `SimpleNamespace`,
which Python never considers equal to the plain nested `dict` inside
`expected_reply`. -/
theorem send_nested_expected_counterexample :
    specDeepEq
        (toNS (JVal.obj (.cons "a" (.obj (.cons "b" (.num 1) .nil)) .nil)))
        (.obj (.cons "a" (.obj (.cons "b" (.num 1) .nil)) .nil)) = true ∧
    send (some (.cons "a" (.obj (.cons "b" (.num 1) .nil)) .nil))
        [.reply (.obj (.cons "a" (.obj (.cons "b" (.num 1) .nil)) .nil))] =
      (.retBool false, 1) := by
  decide

/-- C3 (amended): on a decoded object reply the engine returns `True` iff
the reply's namespace dict Python-equals `expected_reply`; this comparison
coincides with deep mapping equality whenever `expected_reply` is flat
(none of its values contains a nested mapping). -/
theorem send_reply_comparison :
    (∀ (exp : JFields) (v : JVal) (fs : JFields), toNS v = .ns fs →
        ((send (some exp) [.reply v]).1 = .retBool true ↔ pyEqDict fs exp = true)) ∧
    (∀ (exp fs : JFields), flatFields exp = true →
        pyEqDict fs exp = specDeepEqDict fs exp) := by
  constructor
  · intro exp v fs hv
    by_cases hm : pyEqDict fs exp = true
    · simp [send, sendLoop, hv, hm]
    · simp [send, sendLoop, hv, hm]
  · intro exp fs hexp
    simp only [pyEqDict, specDeepEqDict, pyEqSub_flat exp hexp fs]

/-- Witness for C3 (amended): the flat expected reply
`{"result": "locked"}` matches the equal reply, and on flat mappings the
two equalities agree. -/
theorem send_reply_comparison_witness :
    (send (some (.cons "result" (.str "locked") .nil))
        [.reply (.obj (.cons "result" (.str "locked") .nil))]).1 = .retBool true ∧
    pyEqDict (.cons "result" (.str "locked") .nil) (.cons "result" (.str "locked") .nil) =
      specDeepEqDict (.cons "result" (.str "locked") .nil)
        (.cons "result" (.str "locked") .nil) := by
  constructor
  · exact (send_reply_comparison.1 (.cons "result" (.str "locked") .nil)
      (.obj (.cons "result" (.str "locked") .nil))
      (.cons "result" (.str "locked") .nil) (by decide)).mpr (by decide)
  · exact send_reply_comparison.2 (.cons "result" (.str "locked") .nil)
      (.cons "result" (.str "locked") .nil) (by decide)

/-- C4 counterexample: for the numeric pins `-1` and `10000`, `set_lock`
returns the ordinary value `False` (before any network send) instead of
raising `NeoHubUsageError`. -/
theorem set_lock_range_counterexample :
    set_lock (.int (-1)) (some []) = .retFalse ∧
    set_lock (.int 10000) (some []) = .retFalse ∧
    set_lock (.int (-1)) (some []) ≠ .usageError "pin must be a number" ∧
    set_lock (.int (-1)) (some []) ≠ .usageError "devices must be a list of NeoStat objects" := by
  decide

/-- C4 (amended): every numeric pin outside `0..9999` makes `set_lock`
return `False` immediately, before the devices argument is inspected and
before any network I/O; `NeoHubUsageError` is raised only for a pin that
cannot be compared with an `int`. -/
theorem set_lock_range_check (n : Int) (devices : Option (List String))
    (h : n < 0 ∨ 9999 < n) :
    set_lock (.int n) devices = .retFalse ∧
    ∀ d, set_lock .nonNumber d = .usageError "pin must be a number" := by
  refine ⟨?_, fun d => rfl⟩
  simp [set_lock, h]

/-- Witness for C4 (amended): pin `-1` with a well-formed (even empty)
device list returns `False`. -/
theorem set_lock_range_check_witness :
    set_lock (.int (-1)) (some []) = .retFalse ∧
    set_lock .nonNumber none = .usageError "pin must be a number" := by
  have h := set_lock_range_check (-1) (some []) (by decide)
  exact ⟨h.1, h.2 none⟩

/-- C5 (code bug): calling `set_dst` with `region = None` — the declared
default — raises `NeoHubUsageError`, because `None` is not a member of
`["UK", "EU", "NZ"]`; the sentinel-`0` message the function itself builds
for `None` is never sent.  A valid region is accepted and sent. -/
theorem set_dst_none_region_rejected :
    set_dst true none = .usageError "region must be in [UK, EU, NZ]" ∧
    set_dst false none = .usageError "region must be in [UK, EU, NZ]" ∧
    set_dst true (some "UK") = .sendDst "DST_ON" (.regionName "UK") ∧
    set_dst false (some "NZ") = .sendDst "DST_OFF" (.regionName "NZ") ∧
    set_dst true (some "PL") = .usageError "region must be in [UK, EU, NZ]" := by
  decide

/-- C6 counterexample: channel `12` coerces to an integer but is outside
the documented ZigBee channel set, yet `set_channel` sends the
`SET_CHANNEL` message for it instead of signalling a usage error. -/
theorem set_channel_unchecked_counterexample :
    set_channel (.coercible 12) = .sendChannel 12 ∧
    allowed_channels.contains 12 = false ∧
    set_channel (.coercible 12) ≠ .usageError "channel must be a number" := by
  decide

/-- C6 (amended): `set_channel` signals a usage error exactly when
`int(channel)` raises `ValueError`; every integer-coercible channel —
inside or outside the documented set `{11,14,15,19,20,24,25}` — is sent in
the `SET_CHANNEL` message (the set appears only in the docstring and is
never enforced). -/
theorem set_channel_coercion_only :
    (∀ n : Int, set_channel (.coercible n) = .sendChannel n) ∧
    set_channel .valueErr = .usageError "channel must be a number" :=
  ⟨fun _ => rfl, rfl⟩

/-- C7: decoding the integer code of each of the four `ScheduleFormat`
members yields that member back (codes 0, 1, 2, 4 for `NONPROGRAMMABLE`,
`24HOURSFIXED`, `5DAY/2DAY`, `7DAY`); decoding any other integer, `3`
included, raises `ValueError('Unrecognized ScheduleFormat')`. -/
theorem schedule_format_round_trip :
    (∀ f : ScheduleFormat,
        schedule_format_int_to_enum (some (scheduleFormatToInt f)) = .ok (some f)) ∧
    (ScheduleFormat.pyValue .ZERO = "NONPROGRAMMABLE" ∧ scheduleFormatToInt .ZERO = 0 ∧
     ScheduleFormat.pyValue .ONE = "24HOURSFIXED" ∧ scheduleFormatToInt .ONE = 1 ∧
     ScheduleFormat.pyValue .TWO = "5DAY/2DAY" ∧ scheduleFormatToInt .TWO = 2 ∧
     ScheduleFormat.pyValue .SEVEN = "7DAY" ∧ scheduleFormatToInt .SEVEN = 4) ∧
    (∀ n : Int, n ≠ 0 → n ≠ 1 → n ≠ 2 → n ≠ 4 →
        schedule_format_int_to_enum (some n) = .error "Unrecognized ScheduleFormat") := by
  refine ⟨fun f => by cases f <;> rfl, by decide, fun n h0 h1 h2 h4 => ?_⟩
  simp [schedule_format_int_to_enum, h0, h1, h2, h4]

/-- Witness for C7: code `3` is rejected; `SEVEN`'s code `4` round-trips. -/
theorem schedule_format_round_trip_witness :
    schedule_format_int_to_enum (some 3) = .error "Unrecognized ScheduleFormat" ∧
    schedule_format_int_to_enum (some (scheduleFormatToInt .SEVEN)) = .ok (some .SEVEN) :=
  ⟨schedule_format_round_trip.2.2 3 (by decide) (by decide) (by decide) (by decide),
   schedule_format_round_trip.1 .SEVEN⟩

/-- C8: for every pin in `0..9999`, `set_lock` encodes the pin as the four
decimal digits, most significant first, obtained by repeated division and
remainder by 10, and sends them as the first element of the `LOCK`
payload. -/
theorem set_lock_digits (n : Int) (names : List String)
    (h0 : 0 ≤ n) (h1 : n ≤ 9999) :
    set_lock (.int n) (some names) =
      .sendLock [n.ediv 1000, (n.ediv 100).emod 10, (n.ediv 10).emod 10, n.emod 10]
        names := by
  have hr : ¬(n < 0 ∨ 9999 < n) := by omega
  obtain ⟨m, rfl⟩ := Int.eq_ofNat_of_zero_le h0
  have hm : m ≤ 9999 := by exact_mod_cast h1
  simp only [set_lock, hr, if_false]
  refine congrArg (fun l => SetLockResult.sendLock l names) ?_
  have hl : pinDigitsLoop 4 (m : Int) [] =
      [((m / 10 / 10 / 10 % 10 : Nat) : Int), ((m / 10 / 10 % 10 : Nat) : Int),
       ((m / 10 % 10 : Nat) : Int), ((m % 10 : Nat) : Int)] := rfl
  rw [hl,
    show ((m : Int)).ediv 1000 = ((m / 1000 : Nat) : Int) from rfl,
    show ((m : Int)).ediv 100 = ((m / 100 : Nat) : Int) from rfl,
    show ((m : Int)).ediv 10 = ((m / 10 : Nat) : Int) from rfl,
    show (((m / 100 : Nat) : Int)).emod 10 = ((m / 100 % 10 : Nat) : Int) from rfl,
    show (((m / 10 : Nat) : Int)).emod 10 = ((m / 10 % 10 : Nat) : Int) from rfl,
    show ((m : Int)).emod 10 = ((m % 10 : Nat) : Int) from rfl]
  have hdd : m / 10 / 10 = m / 100 := by
    rw [Nat.div_div_eq_div_mul]
  have hddd : m / 10 / 10 / 10 = m / 1000 := by
    rw [hdd, Nat.div_div_eq_div_mul]
  have hmod : m / 1000 % 10 = m / 1000 := Nat.mod_eq_of_lt (by omega)
  rw [hddd, hdd, hmod]

/-- Witness for C8: pin `1234` encodes as `[1, 2, 3, 4]` and pin `7` as
`[0, 0, 0, 7]`. -/
theorem set_lock_digits_witness :
    set_lock (.int 1234) (some ["kitchen"]) = .sendLock [1, 2, 3, 4] ["kitchen"] ∧
    set_lock (.int 7) (some []) = .sendLock [0, 0, 0, 7] [] := by
  have h1 := set_lock_digits 1234 ["kitchen"] (by decide) (by decide)
  have h2 := set_lock_digits 7 [] (by decide) (by decide)
  constructor
  · rw [h1]; decide
  · rw [h2]; decide

/-- C9: `reset` first obtains the firmware version; below 2027 it returns
`False` without ever sending a `RESET` frame, and from 2027 on it sends
`RESET` with expected reply `{"Restarting": 1}` and returns the request
engine's boolean result. -/
theorem reset_firmware_gate (fw : Int) (outs : List Outcome) :
    (fw < 2027 → reset fw outs = (false, .retBool false)) ∧
    (2027 ≤ fw → reset fw outs = (true, (send (some resetReply) outs).1)) := by
  constructor
  · intro h
    have : ¬ 2027 ≤ fw := by omega
    simp [reset, this]
  · intro h
    simp [reset, h]

/-- Witness for C9: firmware 2026 never sends and returns `False`; firmware
2027 sends and passes through the engine's `True` on the exact
`{"Restarting": 1}` reply. -/
theorem reset_firmware_gate_witness :
    reset 2026 [.reply (.obj resetReply)] = (false, .retBool false) ∧
    reset 2027 [.reply (.obj resetReply)] = (true, .retBool true) := by
  constructor
  · exact (reset_firmware_gate 2026 [.reply (.obj resetReply)]).1 (by decide)
  · have h := (reset_firmware_gate 2027 [.reply (.obj resetReply)]).2 (by decide)
    rw [h]; decide

/-- C10: for every device record, the zone snapshot built by the `NeoStat`
constructor holds the record's `ZONE_NAME` value in its `floor_limit`
field — the same value as the snapshot's `name` — because the renamed-attrs
block assigns `ZONE_NAME` to `floor_limit`, overwriting the `FLOOR_LIMIT`
value the simple-attrs loop had stored; on a record whose two fields
differ, `floor_limit` therefore differs from the record's `FLOOR_LIMIT`. -/
theorem neostat_floor_limit_is_zone_name :
    (∀ g : String → Option JVal,
        (neoStatInit g).floor_limit = g "ZONE_NAME" ∧
        (neoStatInit g).floor_limit = (neoStatInit g).name) ∧
    (neoStatInit (fun k =>
        if k = "ZONE_NAME" then some (.str "Kitchen")
        else if k = "FLOOR_LIMIT" then some (.num 28) else none)).floor_limit ≠
      some (.num 28) := by
  refine ⟨fun g => ⟨rfl, rfl⟩, ?_⟩
  decide

end Neohubapi
